import Mathlib

/-!
Verification of the Post Service of a minimal blogging backend.

The data model is taken from src/backend/src/db/models/post.js (a mongoose
schema: required + trimmed title, author reference, optional contents, a list
of string tags, store-maintained createdAt/updatedAt timestamps).  The service
layer src/backend/src/services/posts.js is not part of the sources; its
operations are modelled from the specification (each such definition carries a
doc comment starting with `Modelled from the spec:`).  The document store is
embedded as an explicit state (list of records, id counter, logical clock).
-/

namespace BlogPosts

/-- A persisted Post record.  Fields follow the schema in
src/backend/src/db/models/post.js: `title` (String, required, trimmed),
`author` (a reference to a User identity, kept abstract as a string),
`contents` (optional String), `tags` (list of String), plus the
store-maintained `createdAt`/`updatedAt` timestamps (`timestamps: true`)
and the store-generated unique `id`. -/
structure Post where
  id : Nat
  title : String
  author : String
  contents : Option String
  tags : List String
  createdAt : Nat
  updatedAt : Nat
deriving Repr, DecidableEq

/-- Input fields accepted by createPost; every field is optional in the input
object (validation happens at save time). -/
structure PostFields where
  title : Option String := none
  author : Option String := none
  contents : Option String := none
  tags : Option (List String) := none
deriving Repr, DecidableEq

/-- A patch for updatePost: field-to-new-value pairs; `none` means the field
is absent from the patch. -/
structure Patch where
  title : Option String := none
  contents : Option String := none
  tags : Option (List String) := none
deriving Repr, DecidableEq

/-- The result object of deletePost, reporting how many records were
deleted. -/
structure DeleteResult where
  deletedCount : Nat
deriving Repr, DecidableEq

/-- A ValidationError as raised by the store on save when a required-field
constraint is violated (`required: [true, 'title is required']` in the
schema). -/
inductive ValidationError where
  | requiredField (field : String) : ValidationError
deriving Repr, DecidableEq

instance {ε α : Type} [DecidableEq ε] [DecidableEq α] : DecidableEq (Except ε α) := fun a b =>
  match a, b with
  | .error x, .error y =>
    if h : x = y then .isTrue (by rw [h]) else .isFalse (by intro hc; cases hc; exact h rfl)
  | .error _, .ok _ => .isFalse (by intro hc; cases hc)
  | .ok _, .error _ => .isFalse (by intro hc; cases hc)
  | .ok x, .ok y =>
    if h : x = y then .isTrue (by rw [h]) else .isFalse (by intro hc; cases hc; exact h rfl)

/-- Sort direction accepted by the list operations. -/
inductive SortOrder where
  | ascending
  | descending
deriving Repr, DecidableEq

/-- Options accepted by listAllPosts: `sortBy` defaults to createdAt and
`sortOrder` defaults to descending when absent. -/
structure ListOptions where
  sortBy : Option String := none
  sortOrder : Option SortOrder := none
deriving Repr, DecidableEq

/-- A caller-supplied identifier string: either syntactically valid for the
store's identifier format (and then denotes the numeric id it parses to) or
syntactically invalid.  The store validates identifiers against a known
syntax; invalid syntax behaves as not-found on read paths rather than
throwing. -/
inductive RawId where
  | valid (n : Nat) : RawId
  | invalid (s : String) : RawId
deriving Repr, DecidableEq

/-- The document store state: the post collection, the counter generating
fresh unique ids, and a logical clock stamping createdAt/updatedAt. -/
structure Store where
  posts : List Post
  nextId : Nat
  time : Nat
deriving Repr, DecidableEq

/-- Store well-formedness: every persisted record carries timestamps in the
past of the clock and an id below the generation counter, and ids are
unique. -/
def WF (st : Store) : Prop :=
  (∀ p ∈ st.posts, p.updatedAt < st.time ∧ p.createdAt < st.time ∧ p.id < st.nextId) ∧
  (st.posts.map Post.id).Nodup

instance (st : Store) : Decidable (WF st) := by
  unfold WF
  infer_instance

/-- The schema's `trim: true` setter (JS `String.prototype.trim`): removes
leading and trailing whitespace from the stored string. -/
def trim (s : String) : String :=
  ⟨((s.data.dropWhile Char.isWhitespace).reverse.dropWhile Char.isWhitespace).reverse⟩

/-- Whether a caller-supplied identifier matches a record. -/
def matchesId (id : RawId) (p : Post) : Bool :=
  match id with
  | .valid n => p.id == n
  | .invalid _ => false

/-- From the schema src/backend/src/db/models/post.js: the title is required
and trimmed, so a record passes validation exactly when its title is present
and non-blank after trimming surrounding whitespace. -/
def titleValid (title : Option String) : Bool :=
  match title with
  | none => false
  | some t => !(trim t == "")

/-- Modelled from the spec: `createPost(authorId, fields)` of the missing
src/backend/src/services/posts.js.  `fields.author` is overridden by
`authorId`; `contents` and `tags` default to absent/empty; on a valid title
the record is persisted with a fresh store-generated id and
`createdAt = updatedAt` stamped at the current clock; on a missing or blank
title a ValidationError is signalled and nothing is persisted.  The title is
stored trimmed, per `trim: true` in the schema. -/
def createPost (st : Store) (authorId : String) (fields : PostFields) :
    Except ValidationError Post × Store :=
  match fields.title with
  | none => (.error (.requiredField "title"), st)
  | some t =>
    if trim t == "" then
      (.error (.requiredField "title"), st)
    else
      let p : Post :=
        { id := st.nextId
          title := trim t
          author := authorId
          contents := fields.contents
          tags := fields.tags.getD []
          createdAt := st.time
          updatedAt := st.time }
      (.ok p, { posts := st.posts ++ [p], nextId := st.nextId + 1, time := st.time + 1 })

/-- Look a record up by its numeric id in the collection. -/
def findPost (st : Store) (pid : Nat) : Option Post :=
  st.posts.find? (fun p => p.id == pid)

/-- Modelled from the spec: `getPostById(id)` returns the Post with matching
id, or null when no such Post exists or the id is syntactically invalid for
the store's identifier format. -/
def getPostById (st : Store) (id : RawId) : Option Post :=
  match id with
  | .invalid _ => none
  | .valid pid => findPost st pid

/-- Apply a patch to a record: only the fields present in the patch are
modified; the schema's `trim: true` setter normalizes an incoming title. -/
def applyPatch (p : Post) (patch : Patch) : Post :=
  { p with
    title := match patch.title with
      | some t => trim t
      | none => p.title
    contents := match patch.contents with
      | some c => some c
      | none => p.contents
    tags := match patch.tags with
      | some ts => ts
      | none => p.tags }

/-- Modelled from the spec: `updatePost(id, authorId, patch)` returns the
updated Post, or null if no Post with that id exists (no error for a missing
post).  Only the fields present in the patch are modified; `updatedAt` is
refreshed by the store on every successful save.  Whether `authorId` is
enforced as an ownership check is a caller contract left open by the spec,
so the model does not enforce it. -/
def updatePost (st : Store) (id : RawId) (authorId : String) (patch : Patch) :
    Option Post × Store :=
  match id with
  | .invalid _ => (none, st)
  | .valid pid =>
    match findPost st pid with
    | none => (none, st)
    | some p =>
      let p2 : Post := { applyPatch p patch with updatedAt := st.time }
      (some p2,
        { st with
          posts := st.posts.map (fun q => if q.id == pid then p2 else q)
          time := st.time + 1 })

/-- Modelled from the spec: `deletePost(id, authorId)` reports
`deletedCount` (0 or 1); deleting a non-existent id yields 0, not an error.
Ownership enforcement is a caller contract left open by the spec. -/
def deletePost (st : Store) (id : RawId) (authorId : String) :
    DeleteResult × Store :=
  match id with
  | .invalid _ => ({ deletedCount := 0 }, st)
  | .valid pid =>
    ({ deletedCount := st.posts.countP (fun p => p.id == pid) },
      { st with posts := st.posts.filter (fun p => !(p.id == pid)) })

/-- Modelled from the spec: the sort key named by `sortBy` is one of the
store-maintained timestamp fields; the default (and any unrecognized field
name) is createdAt. -/
def sortKey (field : String) (p : Post) : Nat :=
  if field == "updatedAt" then p.updatedAt else p.createdAt

/-- The Boolean comparison handed to the store's sort: ascending or
descending on the requested field. -/
def sortLE (field : String) (ord : SortOrder) (a b : Post) : Bool :=
  match ord with
  | .ascending => decide (sortKey field a ≤ sortKey field b)
  | .descending => decide (sortKey field b ≤ sortKey field a)

/-- Sort a result sequence per the options, defaulting to createdAt
descending; the underlying stable sort models the store-native tie order. -/
def sortPosts (options : ListOptions) (posts : List Post) : List Post :=
  posts.mergeSort (sortLE (options.sortBy.getD "createdAt") (options.sortOrder.getD .descending))

/-- Modelled from the spec: `listAllPosts(options)` returns every Post,
ordered by the requested field and direction (default: createdAt
descending). -/
def listAllPosts (st : Store) (options : ListOptions) : List Post :=
  sortPosts options st.posts

/-- Modelled from the spec: `listPostsByTag(tag)` returns the Posts whose
tags sequence contains the tag (exact, case-sensitive string membership),
in the default sort order. -/
def listPostsByTag (st : Store) (tag : String) : List Post :=
  sortPosts {} (st.posts.filter (fun p => p.tags.contains tag))

/-- Modelled from the spec: `listPostsByAuthor(authorIdentifier)` returns
the Posts whose author reference equals the identifier exactly, in the
default sort order. -/
def listPostsByAuthor (st : Store) (author : String) : List Post :=
  sortPosts {} (st.posts.filter (fun p => p.author == author))

/-! ### Helper lemmas -/

theorem mem_of_findPost {st : Store} {pid : Nat} {p : Post}
    (h : findPost st pid = some p) : p ∈ st.posts :=
  List.mem_of_find?_eq_some h

theorem id_of_findPost {st : Store} {pid : Nat} {p : Post}
    (h : findPost st pid = some p) : p.id = pid := by
  have := List.find?_some h
  simpa using this

theorem find?_append_fresh (l : List Post) (p : Post)
    (h : ∀ q ∈ l, q.id ≠ p.id) :
    (l ++ [p]).find? (fun q => q.id == p.id) = some p := by
  induction l with
  | nil => simp
  | cons q qs ih =>
    have hq : (q.id == p.id) = false := by
      simpa using h q (by simp)
    simpa [List.find?_cons, hq] using ih (fun r hr => h r (by simp [hr]))

/-! ### Sample data used by concrete counterexamples and witnesses -/

/-- A concrete persisted record, mirroring the first seeded sample post of
the test suite. -/
def samplePost : Post :=
  { id := 0, title := "Learning Redux", author := "u1", contents := none,
    tags := ["redux"], createdAt := 0, updatedAt := 0 }

/-- A concrete well-formed store holding `samplePost`. -/
def sampleStore : Store := { posts := [samplePost], nextId := 1, time := 1 }

/-! ### C1 -/

/-- C1 fails as stated: with input title `"  Hello  "` and inline author
`"mallory"`, the stored record's title is the trimmed `"Hello"` (schema
`trim: true`) and its author is the `authorId` argument `"alice"`, so the
stored fields do not equal the input fields. -/
theorem createPost_stores_input_verbatim_false :
    ((createPost sampleStore "alice" { title := some "  Hello  ", author := some "mallory" }).1.toOption.map Post.title
      ≠ some "  Hello  ") ∧
    ((createPost sampleStore "alice" { title := some "  Hello  ", author := some "mallory" }).1.toOption.map Post.author
      ≠ some "mallory") ∧
    ((createPost sampleStore "alice" { title := some "  Hello  ", author := some "mallory" }).1.toOption.map Post.title
      = some "Hello") ∧
    ((createPost sampleStore "alice" { title := some "  Hello  ", author := some "mallory" }).1.toOption.map Post.author
      = some "alice") := by
  decide

/-- C1 (amended): for every input fields whose title is non-blank after
trimming, createPost on a well-formed store persists a record whose id is
fresh and store-generated (retrievable via getPostById), whose
`createdAt = updatedAt` at creation, whose title is the trimmed input title,
whose author is the authorId argument (overriding any inline author), and
whose remaining fields equal the input fields plus defaults. -/
theorem createPost_valid_creates (st : Store) (authorId : String) (fields : PostFields)
    (t : String) (hwf : WF st) (ht : fields.title = some t) (hnb : ¬ trim t = "") :
    ∃ p st2, createPost st authorId fields = (.ok p, st2) ∧
      p.id = st.nextId ∧
      (∀ q ∈ st.posts, q.id ≠ p.id) ∧
      getPostById st2 (.valid p.id) = some p ∧
      st2.posts = st.posts ++ [p] ∧
      p.createdAt = p.updatedAt ∧
      p.title = trim t ∧
      p.author = authorId ∧
      p.contents = fields.contents ∧
      p.tags = fields.tags.getD [] := by
  have hcond : (trim t == "") = false := by
    simpa using hnb
  refine ⟨⟨st.nextId, trim t, authorId, fields.contents, fields.tags.getD [], st.time, st.time⟩,
    ⟨st.posts ++ [⟨st.nextId, trim t, authorId, fields.contents, fields.tags.getD [], st.time, st.time⟩],
      st.nextId + 1, st.time + 1⟩,
    ?_, rfl, ?_, ?_, rfl, rfl, rfl, rfl, rfl, rfl⟩
  · unfold createPost
    rw [ht]
    simp [hcond]
  · intro q hq
    exact Nat.ne_of_lt ((hwf.1 q hq).2.2)
  · show findPost _ _ = _
    unfold findPost
    exact find?_append_fresh st.posts _ (fun q hq => Nat.ne_of_lt ((hwf.1 q hq).2.2))

/-- Witness for `createPost_valid_creates` at a concrete store and input. -/
theorem createPost_valid_creates_witness :
    WF sampleStore ∧
    ({ title := some "  Hi  " } : PostFields).title = some "  Hi  " ∧
    ¬ trim "  Hi  " = "" ∧
    (∃ p st2, createPost sampleStore "alice" { title := some "  Hi  " } = (.ok p, st2) ∧
      p.id = sampleStore.nextId ∧
      (∀ q ∈ sampleStore.posts, q.id ≠ p.id) ∧
      getPostById st2 (.valid p.id) = some p ∧
      st2.posts = sampleStore.posts ++ [p] ∧
      p.createdAt = p.updatedAt ∧
      p.title = trim "  Hi  " ∧
      p.author = "alice" ∧
      p.contents = ({ title := some "  Hi  " } : PostFields).contents ∧
      p.tags = ({ title := some "  Hi  " } : PostFields).tags.getD []) :=
  ⟨by decide, rfl, by decide,
    createPost_valid_creates sampleStore "alice" { title := some "  Hi  " } "  Hi  "
      (by decide) rfl (by decide)⟩

/-! ### C2 -/

/-- C2: createPost with a missing title, or a title blank after trimming,
fails with a ValidationError and leaves the store (in particular the post
collection) unchanged. -/
theorem createPost_blank_title_fails (st : Store) (authorId : String) (fields : PostFields)
    (h : fields.title = none ∨ ∃ t, fields.title = some t ∧ trim t = "") :
    ∃ e, createPost st authorId fields = (.error e, st) := by
  rcases h with h | ⟨t, ht, htr⟩
  · exact ⟨.requiredField "title", by simp [createPost, h]⟩
  · refine ⟨.requiredField "title", ?_⟩
    unfold createPost
    rw [ht]
    simp [htr]

/-- Witness for `createPost_blank_title_fails`: a titleless input on the
concrete sample store. -/
theorem createPost_blank_title_fails_witness :
    (({ contents := some "Post with no title", tags := some ["empty"] } : PostFields).title = none ∨
      ∃ t, ({ contents := some "Post with no title", tags := some ["empty"] } : PostFields).title = some t ∧ trim t = "") ∧
    ∃ e, createPost sampleStore "u1" { contents := some "Post with no title", tags := some ["empty"] } =
      (.error e, sampleStore) :=
  ⟨Or.inl rfl,
    createPost_blank_title_fails sampleStore "u1"
      { contents := some "Post with no title", tags := some ["empty"] } (Or.inl rfl)⟩

/-! ### C3 -/

/-- C3 fails as stated: patching `samplePost` (updatedAt 0) with title
`"  New  "` stores the trimmed title `"New"`, not the patch's value, and
`updatedAt` — a field not present in the patch — is not byte-identical to
its prior value. -/
theorem updatePost_exact_patch_frame_false :
    ((updatePost sampleStore (.valid 0) "u1" { title := some "  New  " }).1.map Post.title
      ≠ some "  New  ") ∧
    ((updatePost sampleStore (.valid 0) "u1" { title := some "  New  " }).1.map Post.title
      = some "New") ∧
    ((updatePost sampleStore (.valid 0) "u1" { title := some "  New  " }).1.map Post.updatedAt
      ≠ some samplePost.updatedAt) := by
  decide

/-- C3 (amended): updatePost on an existing id sets exactly the business
fields present in the patch (the title being stored schema-trimmed), leaves
every business field not present in the patch — and id, author, createdAt —
byte-identical to its prior value, replaces only the matching record, and
keeps every other record untouched; updatedAt is refreshed by the store. -/
theorem updatePost_frame (st : Store) (pid : Nat) (authorId : String) (patch : Patch)
    (p : Post) (hfind : findPost st pid = some p) :
    ∃ p2 st2, updatePost st (.valid pid) authorId patch = (some p2, st2) ∧
      p2.title = (match patch.title with | some t => trim t | none => p.title) ∧
      p2.contents = (match patch.contents with | some c => some c | none => p.contents) ∧
      p2.tags = (match patch.tags with | some ts => ts | none => p.tags) ∧
      p2.id = p.id ∧
      p2.author = p.author ∧
      p2.createdAt = p.createdAt ∧
      st2.posts = st.posts.map (fun q => if q.id == pid then p2 else q) ∧
      (∀ q ∈ st.posts, q.id ≠ pid → q ∈ st2.posts) := by
  refine ⟨{ applyPatch p patch with updatedAt := st.time },
    ⟨st.posts.map (fun q => if q.id == pid then { applyPatch p patch with updatedAt := st.time } else q),
      st.nextId, st.time + 1⟩, ?_, ?_, ?_, ?_, ?_, ?_, ?_, rfl, ?_⟩
  · simp only [updatePost, hfind]
  · simp [applyPatch]
  · simp [applyPatch]
  · simp [applyPatch]
  · simp [applyPatch]
  · simp [applyPatch]
  · simp [applyPatch]
  · intro q hq hqne
    refine List.mem_map.2 ⟨q, hq, ?_⟩
    simp [hqne]

/-- Witness for `updatePost_frame` at the concrete sample store. -/
theorem updatePost_frame_witness :
    findPost sampleStore 0 = some samplePost ∧
    (∃ p2 st2, updatePost sampleStore (.valid 0) "u1" { contents := some "notes" } = (some p2, st2) ∧
      p2.title = (match ({ contents := some "notes" } : Patch).title with | some t => trim t | none => samplePost.title) ∧
      p2.contents = (match ({ contents := some "notes" } : Patch).contents with | some c => some c | none => samplePost.contents) ∧
      p2.tags = (match ({ contents := some "notes" } : Patch).tags with | some ts => ts | none => samplePost.tags) ∧
      p2.id = samplePost.id ∧
      p2.author = samplePost.author ∧
      p2.createdAt = samplePost.createdAt ∧
      st2.posts = sampleStore.posts.map (fun q => if q.id == (0 : Nat) then p2 else q) ∧
      (∀ q ∈ sampleStore.posts, q.id ≠ 0 → q ∈ st2.posts)) :=
  ⟨by decide, updatePost_frame sampleStore 0 "u1" { contents := some "notes" } samplePost (by decide)⟩

/-! ### C4 -/

/-- C4: when an id matches no persisted record — whether syntactically
invalid or valid but absent — getPostById returns null, updatePost returns
null leaving the store unchanged, and deletePost reports deletedCount 0
leaving the store unchanged; none of them signals an error. -/
theorem missing_id_not_found (st : Store) (id : RawId) (authorId : String) (patch : Patch)
    (h : ∀ q ∈ st.posts, matchesId id q = false) :
    getPostById st id = none ∧
    updatePost st id authorId patch = (none, st) ∧
    deletePost st id authorId = ({ deletedCount := 0 }, st) := by
  cases id with
  | invalid s =>
    exact ⟨rfl, rfl, rfl⟩
  | valid pid =>
    have hfind : findPost st pid = none := by
      unfold findPost
      apply List.find?_eq_none.2
      intro q hq
      simpa [matchesId] using h q hq
    refine ⟨hfind, ?_, ?_⟩
    · simp only [updatePost, hfind]
    · have hcount : st.posts.countP (fun p => p.id == pid) = 0 := by
        apply List.countP_eq_zero.2
        intro q hq
        simpa [matchesId] using h q hq
      have hfilter : st.posts.filter (fun p => !(p.id == pid)) = st.posts := by
        apply List.filter_eq_self.2
        intro q hq
        simpa [matchesId] using h q hq
      simp only [deletePost, hcount, hfilter]

/-- Witness for `missing_id_not_found`: a syntactically valid but absent id
on the concrete sample store. -/
theorem missing_id_not_found_witness :
    (∀ q ∈ sampleStore.posts, matchesId (.valid 99) q = false) ∧
    (getPostById sampleStore (.valid 99) = none ∧
      updatePost sampleStore (.valid 99) "u1" { title := some "Does not exist" } = (none, sampleStore) ∧
      deletePost sampleStore (.valid 99) "u1" = ({ deletedCount := 0 }, sampleStore)) :=
  ⟨by decide,
    missing_id_not_found sampleStore (.valid 99) "u1" { title := some "Does not exist" } (by decide)⟩

/-! ### C5 -/

/-- C5: deletePost on an existing id reports deletedCount 1, and afterwards
the id is no longer retrievable (getPostById yields null). -/
theorem deletePost_existing (st : Store) (pid : Nat) (authorId : String) (p : Post)
    (hwf : WF st) (hfind : findPost st pid = some p) :
    ∃ st2, deletePost st (.valid pid) authorId = ({ deletedCount := 1 }, st2) ∧
      getPostById st2 (.valid pid) = none := by
  have hmem : p ∈ st.posts := mem_of_findPost hfind
  have hpid : p.id = pid := id_of_findPost hfind
  have hcount : st.posts.countP (fun q => q.id == pid) = 1 := by
    have hmemid : pid ∈ st.posts.map Post.id := List.mem_map.2 ⟨p, hmem, hpid⟩
    have h1 : (st.posts.map Post.id).count pid = 1 :=
      List.count_eq_one_of_mem hwf.2 hmemid
    calc st.posts.countP (fun q => q.id == pid)
        = (st.posts.map Post.id).countP (fun n => n == pid) := by
          rw [List.countP_map]
          rfl
      _ = 1 := h1
  refine ⟨⟨st.posts.filter (fun q => !(q.id == pid)), st.nextId, st.time⟩, ?_, ?_⟩
  · simp only [deletePost, hcount]
  · show findPost _ _ = _
    unfold findPost
    apply List.find?_eq_none.2
    intro q hq
    have := (List.mem_filter.1 hq).2
    simp at this
    simp [this]

/-- Witness for `deletePost_existing` at the concrete sample store. -/
theorem deletePost_existing_witness :
    WF sampleStore ∧
    findPost sampleStore 0 = some samplePost ∧
    (∃ st2, deletePost sampleStore (.valid 0) "u1" = ({ deletedCount := 1 }, st2) ∧
      getPostById st2 (.valid 0) = none) :=
  ⟨by decide, by decide, deletePost_existing sampleStore 0 "u1" samplePost (by decide) (by decide)⟩

/-! ### C6 -/

/-- C6: every successful updatePost on a well-formed store strictly
increases the record's updatedAt — even when the patch changes no business
field — while createdAt keeps its prior value. -/
theorem updatePost_advances_updatedAt (st : Store) (pid : Nat) (authorId : String)
    (patch : Patch) (p : Post) (hwf : WF st) (hfind : findPost st pid = some p) :
    ∃ p2 st2, updatePost st (.valid pid) authorId patch = (some p2, st2) ∧
      p.updatedAt < p2.updatedAt ∧
      p2.createdAt = p.createdAt := by
  have hmem : p ∈ st.posts := mem_of_findPost hfind
  refine ⟨{ applyPatch p patch with updatedAt := st.time },
    ⟨st.posts.map (fun q => if q.id == pid then { applyPatch p patch with updatedAt := st.time } else q),
      st.nextId, st.time + 1⟩, ?_, ?_, ?_⟩
  · simp only [updatePost, hfind]
  · exact (hwf.1 p hmem).1
  · simp [applyPatch]

/-- Witness for `updatePost_advances_updatedAt`: an empty patch on the
concrete sample store still advances updatedAt. -/
theorem updatePost_advances_updatedAt_witness :
    WF sampleStore ∧
    findPost sampleStore 0 = some samplePost ∧
    (∃ p2 st2, updatePost sampleStore (.valid 0) "u1" {} = (some p2, st2) ∧
      samplePost.updatedAt < p2.updatedAt ∧
      p2.createdAt = samplePost.createdAt) :=
  ⟨by decide, by decide, updatePost_advances_updatedAt sampleStore 0 "u1" {} samplePost (by decide) (by decide)⟩

/-! ### Sorting helpers -/

theorem sortLE_trans (field : String) (ord : SortOrder) :
    ∀ a b c : Post, sortLE field ord a b → sortLE field ord b c → sortLE field ord a c := by
  intro a b c hab hbc
  cases ord <;> simp [sortLE] at * <;> omega

theorem sortLE_total (field : String) (ord : SortOrder) :
    ∀ a b : Post, sortLE field ord a b || sortLE field ord b a := by
  intro a b
  cases ord <;> simp [sortLE] <;> omega

theorem sortPosts_perm (options : ListOptions) (posts : List Post) :
    List.Perm (sortPosts options posts) posts :=
  List.mergeSort_perm posts _

theorem sortPosts_pairwise (options : ListOptions) (posts : List Post) :
    List.Pairwise
      (fun a b => sortLE (options.sortBy.getD "createdAt") (options.sortOrder.getD .descending) a b)
      (sortPosts options posts) :=
  List.sorted_mergeSort
    (sortLE_trans (options.sortBy.getD "createdAt") (options.sortOrder.getD .descending))
    (sortLE_total (options.sortBy.getD "createdAt") (options.sortOrder.getD .descending))
    posts

theorem mem_sortPosts (options : ListOptions) (posts : List Post) (p : Post) :
    p ∈ sortPosts options posts ↔ p ∈ posts :=
  (sortPosts_perm options posts).mem_iff

/-! ### C7 -/

/-- C7: listAllPosts with no options returns the whole collection ordered
non-increasing by createdAt (the default is descending), and with
`sortBy = createdAt, sortOrder = ascending` returns it ordered
non-decreasing by createdAt. -/
theorem listAllPosts_sorted_createdAt (st : Store) :
    List.Perm (listAllPosts st {}) st.posts ∧
    List.Pairwise (fun a b : Post => b.createdAt ≤ a.createdAt) (listAllPosts st {}) ∧
    List.Perm (listAllPosts st { sortBy := some "createdAt", sortOrder := some .ascending }) st.posts ∧
    List.Pairwise (fun a b : Post => a.createdAt ≤ b.createdAt)
      (listAllPosts st { sortBy := some "createdAt", sortOrder := some .ascending }) := by
  refine ⟨sortPosts_perm _ _, ?_, sortPosts_perm _ _, ?_⟩
  · have h := sortPosts_pairwise {} st.posts
    refine h.imp ?_
    intro a b hab
    simpa [sortLE, sortKey] using hab
  · have h := sortPosts_pairwise { sortBy := some "createdAt", sortOrder := some .ascending } st.posts
    refine h.imp ?_
    intro a b hab
    simpa [sortLE, sortKey] using hab

/-! ### C8 -/

/-- C8: listPostsByTag returns exactly the persisted Posts whose tags
sequence contains the given tag as an exact, case-sensitive string member,
and no Post whose tags do not contain it. -/
theorem listPostsByTag_mem (st : Store) (tag : String) (p : Post) :
    p ∈ listPostsByTag st tag ↔ p ∈ st.posts ∧ tag ∈ p.tags := by
  unfold listPostsByTag
  rw [mem_sortPosts]
  simp [List.mem_filter]

/-! ### C9 -/

/-- C9: listPostsByAuthor returns exactly the persisted Posts whose author
reference equals the given identifier under exact equality. -/
theorem listPostsByAuthor_mem (st : Store) (author : String) (p : Post) :
    p ∈ listPostsByAuthor st author ↔ p ∈ st.posts ∧ p.author = author := by
  unfold listPostsByAuthor
  rw [mem_sortPosts]
  simp [List.mem_filter]

/-! ### C10 -/

/-- An empty store: no persisted records yet. -/
def emptyStore : Store := { posts := [], nextId := 0, time := 0 }

/-- C10: on any store, every successful createPost stores the input title
trimmed of surrounding whitespace, and, independently, every successful
updatePost whose patch carries a title stores that title trimmed; persisted
titles carry no surrounding whitespace. -/
theorem stored_title_trimmed (st : Store) (authorId : String) :
    (∀ fields t p st2, fields.title = some t →
      createPost st authorId fields = (.ok p, st2) → p.title = trim t) ∧
    (∀ patch t2 id p2 st3, patch.title = some t2 →
      updatePost st id authorId patch = (some p2, st3) → p2.title = trim t2) := by
  constructor
  · intro fields t p st2 ht hc
    simp only [createPost, ht] at hc
    by_cases hb : (trim t == "") = true
    · rw [if_pos hb] at hc
      cases hc
    · rw [if_neg hb] at hc
      cases hc
      rfl
  · intro patch t2 id p2 st3 ht2 hu
    cases id with
    | invalid s =>
      simp only [updatePost] at hu
      cases hu
    | valid pid =>
      cases hfind : findPost st pid with
      | none =>
        simp only [updatePost, hfind] at hu
        cases hu
      | some q =>
        simp only [updatePost, hfind] at hu
        cases hu
        simp [applyPatch, ht2]

/-- Witness for `stored_title_trimmed`: the create half exercised on the
empty store (the very first post created), the update half on the sample
store, both with whitespace-padded titles. -/
theorem stored_title_trimmed_witness :
    (({ title := some "  Hi  " } : PostFields).title = some "  Hi  " ∧
     createPost emptyStore "alice" { title := some "  Hi  " } =
       (.ok { id := 0, title := "Hi", author := "alice", contents := none, tags := [],
              createdAt := 0, updatedAt := 0 },
        { posts := [{ id := 0, title := "Hi", author := "alice", contents := none, tags := [],
                      createdAt := 0, updatedAt := 0 }], nextId := 1, time := 1 }) ∧
     ({ id := 0, title := "Hi", author := "alice", contents := none, tags := [],
        createdAt := 0, updatedAt := 0 } : Post).title = trim "  Hi  ") ∧
    (({ title := some "  New  " } : Patch).title = some "  New  " ∧
     updatePost sampleStore (.valid 0) "alice" { title := some "  New  " } =
       (some { id := 0, title := "New", author := "u1", contents := none, tags := ["redux"],
               createdAt := 0, updatedAt := 1 },
        { posts := [{ id := 0, title := "New", author := "u1", contents := none, tags := ["redux"],
                      createdAt := 0, updatedAt := 1 }], nextId := 1, time := 2 }) ∧
     ({ id := 0, title := "New", author := "u1", contents := none, tags := ["redux"],
        createdAt := 0, updatedAt := 1 } : Post).title = trim "  New  ") :=
  ⟨⟨rfl, by decide,
    (stored_title_trimmed emptyStore "alice").1 { title := some "  Hi  " } "  Hi  "
      { id := 0, title := "Hi", author := "alice", contents := none, tags := [],
        createdAt := 0, updatedAt := 0 }
      { posts := [{ id := 0, title := "Hi", author := "alice", contents := none, tags := [],
                    createdAt := 0, updatedAt := 0 }], nextId := 1, time := 1 }
      rfl (by decide)⟩,
   ⟨rfl, by decide,
    (stored_title_trimmed sampleStore "alice").2 { title := some "  New  " } "  New  "
      (.valid 0)
      { id := 0, title := "New", author := "u1", contents := none, tags := ["redux"],
        createdAt := 0, updatedAt := 1 }
      { posts := [{ id := 0, title := "New", author := "u1", contents := none, tags := ["redux"],
                    createdAt := 0, updatedAt := 1 }], nextId := 1, time := 2 }
      rfl (by decide)⟩⟩

end BlogPosts
